import Mathlib

/-!
Shallow embedding of the locally defined logic of the IPTA GWA tutorial
notebook (part 2): the two custom chromatic waveform functions, the chain
post-processing into a 95 percent upper limit, the pulsar loading loop,
the par and tim file filter, the noise parameter dictionary fold, and the
two model assembly loops.  Numpy floating point arrays are modelled as
lists of real numbers; numpy scalar operations as real arithmetic.
-/

namespace GwaTutorial

/-! Constants from the enterprise constants module used by the notebook:
day in seconds, the year in seconds and the annual frequency fyr. -/

namespace const

noncomputable def day : ℝ := 24 * 3600

noncomputable def yr : ℝ := 365.25 * day

noncomputable def fyr : ℝ := 1 / yr

end const

/-- Model of numpy heaviside x h0: it is 0 for x below 0, h0 at 0 and 1
for x above 0.  The notebook calls it with second argument 1. -/
noncomputable def npHeaviside (x h0 : ℝ) : ℝ :=
  if x < 0 then 0 else if x = 0 then h0 else 1

/-- Elementwise body of chrom_exp_decay, transcribed from the notebook:
t0 is rescaled by const.day, tau is 10 to the log10_tau times const.day,
wf is minus 10 to the log10_Amp times the heaviside step (with value 1 at
the boundary) times the decaying exponential, and the returned value is
wf times (1400 / freq) to the idx. -/
noncomputable def chrom_exp_decay_wf (log10_Amp t0 log10_tau idx toa freq : ℝ) : ℝ :=
  let t0s := t0 * const.day
  let tau := 10 ^ log10_tau * const.day
  let wf := -(10 ^ log10_Amp) * npHeaviside (toa - t0s) 1 * Real.exp (-(toa - t0s) / tau)
  wf * (1400 / freq) ^ idx

/-- chrom_exp_decay on arrays: numpy broadcasting over the aligned toas
and freqs arrays, modelled as a zipWith of the elementwise body. -/
noncomputable def chrom_exp_decay (toas freqs : List ℝ) (log10_Amp t0 log10_tau idx : ℝ) :
    List ℝ :=
  List.zipWith (chrom_exp_decay_wf log10_Amp t0 log10_tau idx) toas freqs

/-- Closed form delay claimed by the spec for the exponential dip, written
from the words of the spec: wf t = -10^log10_Amp * H(t - t0*day) *
exp(-(t - t0*day) / (10^log10_tau * day)) * (1400/freqs)^idx with H the
Heaviside step with H 0 = 1 and day = 86400 seconds. -/
noncomputable def specChromExpDecay (toas freqs : List ℝ) (log10_Amp t0 log10_tau idx : ℝ) :
    List ℝ :=
  List.zipWith
    (fun t f =>
      -(10 ^ log10_Amp) * npHeaviside (t - t0 * 86400) 1 *
        Real.exp (-(t - t0 * 86400) / (10 ^ log10_tau * 86400)) * (1400 / f) ^ idx)
    toas freqs

/-- Elementwise body of chrom_yearly_sinusoid, transcribed from the
notebook: wf is 10 to the log10_Amp times the sine of 2 pi fyr toa plus
phase, and the returned value is wf times (1400 / freq) to the idx. -/
noncomputable def chrom_yearly_sinusoid_wf (log10_Amp phase idx toa freq : ℝ) : ℝ :=
  let wf := 10 ^ log10_Amp * Real.sin (2 * Real.pi * const.fyr * toa + phase)
  wf * (1400 / freq) ^ idx

/-- chrom_yearly_sinusoid on arrays, modelled as a zipWith of the
elementwise body over the aligned toas and freqs arrays. -/
noncomputable def chrom_yearly_sinusoid (toas freqs : List ℝ) (log10_Amp phase idx : ℝ) :
    List ℝ :=
  List.zipWith (chrom_yearly_sinusoid_wf log10_Amp phase idx) toas freqs

/-- Closed form delay claimed by the spec for the annual sinusoid, written
from the words of the spec: 10^log10_Amp * sin(2 pi fyr toas + phase) *
(1400/freqs)^idx with fyr the annual frequency constant. -/
noncomputable def specChromYearlySinusoid (toas freqs : List ℝ) (log10_Amp phase idx : ℝ) :
    List ℝ :=
  List.zipWith
    (fun t f => 10 ^ log10_Amp * Real.sin (2 * Real.pi * const.fyr * t + phase) * (1400 / f) ^ idx)
    toas freqs

/-! Post processing of chains into an upper limit (claim C6).  The chain
file is modelled as a list of rows of reals; numpy percentile with the
default linear interpolation is modelled on the sorted sample list. -/

/-- Model of numpy percentile q on a one dimensional array with the
default linear interpolation: on the ascending sorted data of length n the
position is q/100 * (n-1), and the value interpolates linearly between the
two neighbouring order statistics. -/
noncomputable def npPercentile (q : ℝ) (xs : List ℝ) : ℝ :=
  let s := xs.insertionSort (fun a b => a ≤ b)
  let n := s.length
  if n = 0 then 0
  else
    let pos := q / 100 * ((n : ℝ) - 1)
    let i := ⌊pos⌋₊
    let frac := pos - (i : ℝ)
    s.getD i 0 + frac * (s.getD (i + 1) 0 - s.getD i 0)

/-- Verbose post processing transcribed from the notebook: burn is
int(0.25 * number of rows), the samples are column -5 (fifth from last)
of the rows after the burn in, and the upper limit is 10 to the 95th
percentile of those samples. -/
noncomputable def upperVerbose (chain : List (List ℝ)) : ℝ :=
  let burn := ⌊(0.25 : ℝ) * (chain.length : ℝ)⌋₊
  let samples := (chain.drop burn).map (fun row => row.getD (row.length - 5) 0)
  10 ^ npPercentile 95 samples

/-- Modelled from the spec: enterprise_extensions model_utils ul is
external library code not under src; the spec describes the reported
upper limit as 10 raised to the q-th percentile of the given samples. -/
noncomputable def model_utils_ul (samples : List ℝ) (q : ℝ) : ℝ :=
  10 ^ npPercentile q samples

/-- Post processing of the model_utils variant transcribed from the
notebook: burn is int(0.25 * number of rows), ind is the index of the
name log10_A_gw in pars, and the reported value is model_utils_ul on
column ind of the rows after the burn in, with q = 95. -/
noncomputable def upperModelUtils (chain : List (List ℝ)) (pars : List String) : ℝ :=
  let burn := ⌊(0.25 : ℝ) * (chain.length : ℝ)⌋₊
  let ind := pars.indexOf "log10_A_gw"
  model_utils_ul ((chain.drop burn).map (fun row => row.getD ind 0)) 95

/-- Upper limit pipeline written from the words of the spec: the burn in
is the first floor(0.25*n) rows, and the reported 95 percent upper limit
is 10 raised to the 95th percentile of the post burn in samples of the
column selected by colOf. -/
noncomputable def specUpperLimit (chain : List (List ℝ)) (colOf : List ℝ → ℕ) : ℝ :=
  let samples :=
    (chain.drop ⌊(0.25 : ℝ) * (chain.length : ℝ)⌋₊).map (fun row => row.getD (colOf row) 0)
  10 ^ npPercentile 95 samples

/-! Pulsar loading loop (claim C7).  The notebook iterates over the
zipped par and tim file pairs and calls the external Pulsar constructor
on each with no try or except around it, appending the results; the
constructor is abstracted as a fallible function into Except. -/

/-- The pulsar loading loop of the notebook: for each (par, tim) pair in
order, call the external constructor and append the result; there is no
handler, so the loop stops at the first raised exception and the
exception is returned unchanged. -/
def loadPsrs {ε P : Type} (pulsar : String → String → Except ε P) :
    List (String × String) → Except ε (List P)
  | [] => Except.ok []
  | pt :: rest =>
    match pulsar pt.1 pt.2 with
    | Except.error e => Except.error e
    | Except.ok psr =>
      match loadPsrs pulsar rest with
      | Except.error e => Except.error e
      | Except.ok ps => Except.ok (psr :: ps)

/-- Concrete fallible constructor used to witness the error propagation
theorem on a concrete input. -/
def badPulsar : String → String → Except String Unit :=
  fun p _ => if p = "bad" then Except.error "parse failure" else Except.ok ()

/-! The par and tim file filter (claim C8).  The notebook keeps a globbed
path when the part of its basename before the first dot is a key of
psrdict. -/

/-- The pulsar dictionary of the notebook: pulsar name to the list of its
pta flags. -/
def psrdict : List (String × List String) :=
  [("J1713+0747", ["NANOGrav", "PPTA"]),
   ("J1909-3744", ["NANOGrav", "PPTA"]),
   ("J1640+2224", ["NANOGrav"]),
   ("J1600-3053", ["NANOGrav"]),
   ("J2317+1439", ["NANOGrav"]),
   ("J1918-0642", ["NANOGrav"]),
   ("J1614-2230", ["NANOGrav"]),
   ("J1744-1134", ["NANOGrav", "PPTA"]),
   ("J0030+0451", ["NANOGrav"]),
   ("J2145-0750", ["NANOGrav"]),
   ("J1857+0943", ["NANOGrav"]),
   ("J1853+1303", ["NANOGrav"]),
   ("J0613-0200", ["NANOGrav"]),
   ("J1455-3330", ["NANOGrav"]),
   ("J1741+1351", ["NANOGrav"]),
   ("J2010-1323", ["NANOGrav"]),
   ("J1024-0719", ["NANOGrav"]),
   ("J1012+5307", ["NANOGrav"]),
   ("J0437-4715", ["PPTA"])]

/-- psrlist is the list of keys of psrdict. -/
def psrlist : List String := psrdict.map Prod.fst

/-- Characters after the last slash of a character list; this is the last
element of the python split on the slash character. -/
def afterLastSlash (l : List Char) : List Char :=
  l.foldl (fun acc c => if c = '/' then [] else acc ++ [c]) []

/-- The pulsar name extracted from a path in the notebook filter: the
part of the basename before the first dot, that is
x.split on slash, last element, split on dot, first element. -/
def psrNameOf (s : String) : String :=
  String.mk ((afterLastSlash s.data).takeWhile (fun c => c ≠ '.'))

/-- The filter of the notebook applied to a globbed file list: keep the
paths whose extracted pulsar name is in psrlist. -/
def filterFiles (files : List String) : List String :=
  files.filter (fun x => decide (psrNameOf x ∈ psrlist))

/-! The noise parameter dictionary fold (claim C9).  The notebook starts
from the empty dictionary and calls dict update with the content of each
JSON noise file, taken in sorted filename order.  A JSON dictionary is
modelled as a partial map from keys to values, and dict update as the
right biased merge. -/

/-- Python dict update: the merged map prefers the values of the new
dictionary e and falls back to the old dictionary d. -/
def updateDict {V : Type} (d e : String → Option V) : String → Option V :=
  fun k =>
    match e k with
    | some v => some v
    | none => d k

/-- The params loop of the notebook over named noise files: fold dict
update over the file contents in list order, starting from the empty
dictionary. -/
def foldParamsF {V : Type} (files : List (String × (String → Option V))) :
    String → Option V :=
  files.foldl (fun acc f => updateDict acc f.2) (fun _ => none)

/-- Concrete noise dictionary for the C9 witness. -/
def exDictA : String → Option Nat := fun k => if k = "A" then some 1 else none

/-- Second concrete noise dictionary for the C9 witness, overriding the
same key. -/
def exDictB : String → Option Nat := fun k => if k = "A" then some 2 else none

/-- Concrete sorted noise file list for the C9 witness. -/
def exFiles : List (String × (String → Option Nat)) :=
  [("a.json", exDictA), ("b.json", exDictB)]

/-! The two model assembly loops (claim C10).  A signal sum is modelled
as the list of its summands, in the order the notebook adds them. -/

/-- The signal terms combined by the notebook. -/
inductive Sig
  | ef
  | eq
  | rn
  | dm_gp
  | tm
  | eph
  | gw
  | ec
  | dm_annual
  | dmexp
  deriving DecidableEq

/-- The per pulsar data the assembly loops read: the pulsar name and its
pta flags. -/
structure PsrInfo where
  name : String
  pta : List String

/-- The base model s of the first assembly:
s = ef + eq + rn + dm_gp + tm + eph + gw. -/
def base_model : List Sig := [Sig.ef, Sig.eq, Sig.rn, Sig.dm_gp, Sig.tm, Sig.eph, Sig.gw]

/-- The first assembly loop: ecorr is added exactly when NANOGrav is
among the pta flags of the pulsar. -/
def model1 (p : PsrInfo) : List Sig :=
  if "NANOGrav" ∈ p.pta then base_model ++ [Sig.ec] else base_model

/-- The base model of the second assembly: the first base model plus the
annual DM term added for all pulsars. -/
def base_model2 : List Sig := base_model ++ [Sig.dm_annual]

/-- The second assembly loop: ecorr is added exactly when NANOGrav is
among the pta flags, and the DM exponential dip is additionally added
exactly when such a pulsar is named J1713+0747. -/
def model2 (p : PsrInfo) : List Sig :=
  if "NANOGrav" ∈ p.pta then
    if p.name = "J1713+0747" then (base_model2 ++ [Sig.ec]) ++ [Sig.dmexp]
    else base_model2 ++ [Sig.ec]
  else base_model2

/-! Theorems for claims C1 to C5. -/

/-- Pointwise congruence for zipWith, used to compare the transcribed
waveforms with the closed forms of the spec. -/
theorem zipWith_ext {α β γ : Type} (f g : α → β → γ) (h : ∀ a b, f a b = g a b) :
    ∀ (l1 : List α) (l2 : List β), List.zipWith f l1 l2 = List.zipWith g l1 l2 := by
  intro l1
  induction l1 with
  | nil => intro l2; rfl
  | cons a t ih =>
    intro l2
    cases l2 with
    | nil => rfl
    | cons b t2 => simp only [List.zipWith, h, ih]

/-- C1: chrom_exp_decay returns exactly the closed form delay
wf t = -10^log10_Amp * H(t - t0*day) * exp(-(t - t0*day)/(10^log10_tau * day))
* (1400/freqs)^idx elementwise, with H the Heaviside step with H 0 = 1 and
day = 86400 seconds. -/
theorem chrom_exp_decay_matches_spec (toas freqs : List ℝ) (log10_Amp t0 log10_tau idx : ℝ) :
    chrom_exp_decay toas freqs log10_Amp t0 log10_tau idx =
      specChromExpDecay toas freqs log10_Amp t0 log10_tau idx := by
  unfold chrom_exp_decay specChromExpDecay
  apply zipWith_ext
  intro t f
  unfold chrom_exp_decay_wf
  norm_num [const.day]

/-- C2: at a TOA equal to the dip epoch t0 times 86400 seconds, the
elementwise exponential dip delay equals -10^log10_Amp * (1400/freq)^idx:
the Heaviside factor is 1 (second argument 1 at the boundary) and the
exponential factor is 1. -/
theorem chrom_exp_decay_at_t0 (toa freq log10_Amp t0 log10_tau idx : ℝ)
    (h : toa = t0 * 86400) :
    chrom_exp_decay_wf log10_Amp t0 log10_tau idx toa freq =
      -(10 ^ log10_Amp) * (1400 / freq) ^ idx := by
  subst h
  simp only [chrom_exp_decay_wf]
  have hz : t0 * 86400 - t0 * const.day = 0 := by norm_num [const.day]
  rw [hz]
  simp [npHeaviside]

/-- Witness for C2 at toa = 86400, t0 = 1, freq = 700, log10_Amp = 0,
log10_tau = 1, idx = 2. -/
theorem chrom_exp_decay_at_t0_witness :
    (86400 : ℝ) = 1 * 86400 ∧
      chrom_exp_decay_wf 0 1 1 2 86400 700 = -(10 ^ (0 : ℝ)) * (1400 / 700) ^ (2 : ℝ) :=
  ⟨by norm_num, chrom_exp_decay_at_t0 86400 700 0 1 1 2 (by norm_num)⟩

/-- C3: the annual sinusoid is periodic with the annual frequency: adding
1 / fyr seconds to every TOA leaves the returned delay list unchanged. -/
theorem chrom_yearly_sinusoid_periodic (toas freqs : List ℝ) (log10_Amp phase idx : ℝ) :
    chrom_yearly_sinusoid (toas.map (fun t => t + 1 / const.fyr)) freqs log10_Amp phase idx =
      chrom_yearly_sinusoid toas freqs log10_Amp phase idx := by
  unfold chrom_yearly_sinusoid
  rw [List.zipWith_map_left]
  apply zipWith_ext
  intro t f
  unfold chrom_yearly_sinusoid_wf
  have harg : 2 * Real.pi * const.fyr * (t + 1 / const.fyr) + phase =
      (2 * Real.pi * const.fyr * t + phase) + 2 * Real.pi := by
    have hone : const.fyr * (1 / const.fyr) = 1 := by
      norm_num [const.fyr, const.yr, const.day]
    linear_combination (2 * Real.pi) * hone
  rw [harg, Real.sin_add_two_pi]

/-- C4: chrom_yearly_sinusoid returns exactly the closed form delay
10^log10_Amp * sin(2 pi fyr toas + phase) * (1400/freqs)^idx elementwise,
with fyr the annual frequency constant. -/
theorem chrom_yearly_sinusoid_matches_spec (toas freqs : List ℝ) (log10_Amp phase idx : ℝ) :
    chrom_yearly_sinusoid toas freqs log10_Amp phase idx =
      specChromYearlySinusoid toas freqs log10_Amp phase idx := by
  unfold chrom_yearly_sinusoid specChromYearlySinusoid
  apply zipWith_ext
  intro t f
  unfold chrom_yearly_sinusoid_wf
  ring

/-- C5: both waveform functions are deterministic: two calls with equal
argument tuples return equal results; in this embedding they are pure
functions of toas, freqs and the scalar parameters only. -/
theorem waveforms_deterministic
    (x y : List ℝ × List ℝ × ℝ × ℝ × ℝ × ℝ) (z w : List ℝ × List ℝ × ℝ × ℝ × ℝ)
    (hxy : x = y) (hzw : z = w) :
    chrom_exp_decay x.1 x.2.1 x.2.2.1 x.2.2.2.1 x.2.2.2.2.1 x.2.2.2.2.2 =
        chrom_exp_decay y.1 y.2.1 y.2.2.1 y.2.2.2.1 y.2.2.2.2.1 y.2.2.2.2.2 ∧
      chrom_yearly_sinusoid z.1 z.2.1 z.2.2.1 z.2.2.2.1 z.2.2.2.2 =
        chrom_yearly_sinusoid w.1 w.2.1 w.2.2.1 w.2.2.2.1 w.2.2.2.2 := by
  subst hxy
  subst hzw
  exact ⟨rfl, rfl⟩

/-- Witness for C5 at a concrete pair of equal argument tuples. -/
theorem waveforms_deterministic_witness :
    chrom_exp_decay [86400] [1400] (-7) 1 2 2 = chrom_exp_decay [86400] [1400] (-7) 1 2 2 ∧
      chrom_yearly_sinusoid [0] [1400] (-7) 0 2 = chrom_yearly_sinusoid [0] [1400] (-7) 0 2 :=
  waveforms_deterministic ([86400], [1400], -7, 1, 2, 2) ([86400], [1400], -7, 1, 2, 2)
    ([0], [1400], -7, 0, 2) ([0], [1400], -7, 0, 2) rfl rfl

/-- C6: both post processing variants compute the spec upper limit: with
burn in floor(0.25*n), the verbose variant applies the pipeline to the
fifth from last column and the model_utils variant to the column whose
index in pars is that of log10_A_gw. -/
theorem upper_limit_matches_spec (chain : List (List ℝ)) (pars : List String) :
    upperVerbose chain = specUpperLimit chain (fun row => row.length - 5) ∧
      upperModelUtils chain pars = specUpperLimit chain (fun _ => pars.indexOf "log10_A_gw") :=
  ⟨rfl, rfl⟩

/-- C7: no handler is defined in the notebook, so if every external
Pulsar construction before some pair succeeds and that pair raises an
exception, the loading loop raises the same exception unchanged. -/
theorem pulsar_loading_propagates_errors {ε P : Type}
    (pulsar : String → String → Except ε P) (pre post : List (String × String))
    (pt : String × String) (e : ε)
    (hpre : ∀ q ∈ pre, ∃ r, pulsar q.1 q.2 = Except.ok r)
    (hfail : pulsar pt.1 pt.2 = Except.error e) :
    loadPsrs pulsar (pre ++ pt :: post) = Except.error e := by
  induction pre with
  | nil =>
    simp only [List.nil_append, loadPsrs, hfail]
  | cons q rest ih =>
    obtain ⟨r, hr⟩ := hpre q (by simp)
    have hrest := ih (fun x hx => hpre x (by simp [hx]))
    simp only [List.cons_append, loadPsrs, hr, List.append_eq, hrest]

/-- Witness for C7: a concrete constructor that succeeds on the first
pair and raises on the second; the loop returns that same error. -/
theorem pulsar_loading_propagates_errors_witness :
    loadPsrs badPulsar [("good", "t1"), ("bad", "t2")] = Except.error "parse failure" :=
  pulsar_loading_propagates_errors badPulsar [("good", "t1")] [] ("bad", "t2")
    "parse failure"
    (fun q hq => by
      simp only [List.mem_singleton] at hq
      subst hq
      exact ⟨(), by simp [badPulsar]⟩)
    (by simp [badPulsar])

/-- C8: every path kept by the filter has a basename whose part before
the first dot in psrlist, the filtered list is an order preserving
sublist of the input list, and no path whose extracted pulsar name is in
psrlist is dropped. -/
theorem filtered_files_invariant (files : List String) :
    (∀ x ∈ filterFiles files, psrNameOf x ∈ psrlist) ∧
      (filterFiles files).Sublist files ∧
      (∀ x ∈ files, psrNameOf x ∈ psrlist → x ∈ filterFiles files) := by
  refine ⟨?_, List.filter_sublist files, ?_⟩
  · intro x hx
    have := List.of_mem_filter hx
    simpa using this
  · intro x hx hname
    exact List.mem_filter.mpr ⟨hx, by simpa using hname⟩

/-- Witness for C8 on a concrete globbed list: a J1713+0747 path is in
psrlist and is kept by the filter. -/
theorem filtered_files_invariant_witness :
    psrNameOf "./partim_filtered_ppta_ng/J1713+0747.IPTADR2.par" ∈ psrlist ∧
      "./partim_filtered_ppta_ng/J1713+0747.IPTADR2.par" ∈
        filterFiles ["./partim_filtered_ppta_ng/J1713+0747.IPTADR2.par",
          "./partim_filtered_ppta_ng/B1937+21.IPTADR2.par"] :=
  ⟨by decide,
    (filtered_files_invariant ["./partim_filtered_ppta_ng/J1713+0747.IPTADR2.par",
        "./partim_filtered_ppta_ng/B1937+21.IPTADR2.par"]).2.2
      "./partim_filtered_ppta_ng/J1713+0747.IPTADR2.par" (by simp) (by decide)⟩

/-- Characterisation of the dictionary fold with a general accumulator:
the result at a key is the first hit over the reversed file list, with
the accumulator as fallback. -/
theorem foldParams_go {V : Type} (files : List (String × (String → Option V)))
    (acc : String → Option V) (k : String) :
    files.foldl (fun a f => updateDict a f.2) acc k =
      (files.reverse.findSome? (fun f => f.2 k)).or (acc k) := by
  induction files generalizing acc with
  | nil => simp
  | cons f rest ih =>
    rw [List.foldl_cons, ih, List.reverse_cons, List.findSome?_append]
    cases h : rest.reverse.findSome? (fun g => g.2 k) with
    | some v => simp
    | none =>
      simp only [Option.none_or]
      cases hf : f.2 k with
      | some v => simp [List.findSome?, hf, updateDict]
      | none => simp [List.findSome?, hf, updateDict]

/-- On a file list with strictly sorted names, the first hit over the
reversed list at a key is the value of the file whose name is maximal
among the files containing the key. -/
theorem findSome_last_sorted {V : Type} (k : String) :
    ∀ files : List (String × (String → Option V)),
      (files.map Prod.fst).Pairwise (fun a b => a < b) →
      ∀ f ∈ files, (f.2 k).isSome →
        (∀ g ∈ files, (g.2 k).isSome → g.1 ≤ f.1) →
        files.reverse.findSome? (fun g => g.2 k) = f.2 k := by
  intro files
  induction files with
  | nil =>
    intro _ f hf
    exact absurd hf (List.not_mem_nil f)
  | cons x rest ih =>
    intro hsort f hf hs hmax
    rw [List.reverse_cons, List.findSome?_append]
    have hsort2 : (rest.map Prod.fst).Pairwise (fun a b => a < b) := by
      rw [List.map_cons, List.pairwise_cons] at hsort
      exact hsort.2
    have hlt : ∀ g ∈ rest, x.1 < g.1 := by
      intro g hg
      rw [List.map_cons, List.pairwise_cons] at hsort
      exact hsort.1 g.1 (List.mem_map.mpr ⟨g, hg, rfl⟩)
    rcases List.mem_cons.mp hf with hfx | hfr
    · subst hfx
      have hnone : rest.reverse.findSome? (fun g => g.2 k) = none := by
        apply List.findSome?_eq_none_iff.mpr
        intro g hg
        have hgr : g ∈ rest := List.mem_reverse.mp hg
        by_contra hne
        have hgs : (g.2 k).isSome := Option.ne_none_iff_isSome.mp hne
        exact absurd (hmax g (List.mem_cons_of_mem _ hgr) hgs)
          (not_le.mpr (hlt g hgr))
      rw [hnone, Option.none_or]
      cases hx : f.2 k with
      | some v => simp [List.findSome?, hx]
      | none => simp [List.findSome?, hx]
    · have hmax2 : ∀ g ∈ rest, (g.2 k).isSome → g.1 ≤ f.1 :=
        fun g hg hgs => hmax g (List.mem_cons_of_mem _ hg) hgs
      rw [ih hsort2 f hfr hs hmax2]
      obtain ⟨v, hv⟩ := Option.isSome_iff_exists.mp hs
      simp [hv]

/-- C9: the params dictionary is the left fold of dict update over the
noise files in list (sorted filename) order: at every key the result is
the first hit over the reversed list, every key present in some file is
present in the result, and under strictly sorted filenames the value at a
key is the value it has in the last (lexicographically greatest) file
containing that key. -/
theorem params_update_fold {V : Type} (files : List (String × (String → Option V)))
    (k : String) :
    foldParamsF files k = files.reverse.findSome? (fun f => f.2 k) ∧
      ((∃ f ∈ files, (f.2 k).isSome) → (foldParamsF files k).isSome) ∧
      ((files.map Prod.fst).Pairwise (fun a b => a < b) →
        ∀ f ∈ files, (f.2 k).isSome →
          (∀ g ∈ files, (g.2 k).isSome → g.1 ≤ f.1) →
          foldParamsF files k = f.2 k) := by
  have h1 : foldParamsF files k = files.reverse.findSome? (fun f => f.2 k) := by
    rw [foldParamsF, foldParams_go]
    simp [Option.or_none]
  refine ⟨h1, ?_, ?_⟩
  · rintro ⟨f, hf, hs⟩
    rw [h1]
    cases hfind : files.reverse.findSome? (fun f => f.2 k) with
    | some v => rfl
    | none =>
      have := List.findSome?_eq_none_iff.mp hfind f (List.mem_reverse.mpr hf)
      rw [this] at hs
      exact absurd hs (by simp)
  · intro hsort f hf hs hmax
    rw [h1]
    exact findSome_last_sorted k files hsort f hf hs hmax

/-- Witness for C9 on two concrete sorted noise files both defining a key:
the fold keeps the value of the later file. -/
theorem params_update_fold_witness : foldParamsF exFiles "A" = some 2 := by
  have h := (params_update_fold exFiles "A").2.2
  have hab : ("a.json" : String) < "b.json" := by
    rw [String.lt_iff_toList_lt]
    decide
  have hp : (exFiles.map Prod.fst).Pairwise (fun a b => a < b) := by
    simp only [exFiles, List.map_cons, List.map_nil]
    exact List.pairwise_cons.mpr ⟨by simpa using hab, by simp⟩
  have hmem : ("b.json", exDictB) ∈ exFiles := by simp [exFiles]
  have hsome : (exDictB "A").isSome := by decide
  have hmax : ∀ g ∈ exFiles, (g.2 "A").isSome → g.1 ≤ "b.json" := by
    intro g hg _
    simp only [exFiles, List.mem_cons, List.mem_singleton] at hg
    rcases hg with hg | hg | hg
    · rw [hg]; exact le_of_lt hab
    · rw [hg]
    · exact absurd hg (by simp)
  have := h hp ("b.json", exDictB) hmem hsome hmax
  rw [this]
  decide

/-- C10: in both assembly loops the ecorr term is in the model of a
pulsar iff NANOGrav is among its pta flags; in the second assembly the
DM exponential dip is in the model iff the pulsar is NANOGrav and is
named J1713+0747; every base term (efac, equad, red noise, DM GP, timing
model, ephemeris, GWB, and in the second loop the annual DM term) is in
the model of every pulsar. -/
theorem model_assembly_membership (p : PsrInfo) :
    (Sig.ec ∈ model1 p ↔ "NANOGrav" ∈ p.pta) ∧
      (Sig.ec ∈ model2 p ↔ "NANOGrav" ∈ p.pta) ∧
      (Sig.dmexp ∈ model2 p ↔ ("NANOGrav" ∈ p.pta ∧ p.name = "J1713+0747")) ∧
      (∀ σ ∈ base_model, σ ∈ model1 p) ∧
      (∀ σ ∈ base_model2, σ ∈ model2 p) := by
  by_cases hn : "NANOGrav" ∈ p.pta <;>
    by_cases hj : p.name = "J1713+0747" <;>
      simp [model1, model2, base_model2, base_model, hn, hj]

/-- Witness for C10 at a concrete NANOGrav pulsar named J1713+0747: its
second model contains the DM exponential dip and the ecorr term, and the
red noise term is in both models. -/
theorem model_assembly_membership_witness :
    Sig.dmexp ∈ model2 ⟨"J1713+0747", ["NANOGrav", "PPTA"]⟩ ∧
      Sig.ec ∈ model1 ⟨"J1713+0747", ["NANOGrav", "PPTA"]⟩ ∧
      Sig.rn ∈ model2 ⟨"J1713+0747", ["NANOGrav", "PPTA"]⟩ :=
  ⟨(model_assembly_membership ⟨"J1713+0747", ["NANOGrav", "PPTA"]⟩).2.2.1.mpr
      ⟨by simp, rfl⟩,
    (model_assembly_membership ⟨"J1713+0747", ["NANOGrav", "PPTA"]⟩).1.mpr (by simp),
    (model_assembly_membership ⟨"J1713+0747", ["NANOGrav", "PPTA"]⟩).2.2.2.2 Sig.rn
      (by simp [base_model2, base_model])⟩

end GwaTutorial
